import Mathlib

/-!
Verification development for the QR-code generator component
(`src/app/components/QRCodeGenerator.tsx`).  The TypeScript functions
`formatContentByType`, `detectContentType`, `generateBatchQRCodes`,
`convertCanvasToEPS` and the zip-filename derivation of
`downloadAllQRCodesAsZip` are shallowly embedded as executable Lean
functions.  External collaborators (the QR encoder `QRCode.toDataURL`)
are modelled as opaque function parameters; the JavaScript runtime
functions used by the source (`JSON.parse`, `String.prototype.trim`,
template-literal stringification) are modelled explicitly below.
-/

namespace QRApp

/-- Content type options of the source: `type ContentType = 'text' | 'url' | 'email' | 'phone' | 'sms' | 'wifi'`. -/
inductive ContentType where
  | text
  | url
  | email
  | phone
  | sms
  | wifi
deriving DecidableEq, Repr

/-- File format options of the source: `type FileFormat = 'png' | 'eps'`. -/
inductive FileFormat where
  | png
  | eps
deriving DecidableEq, Repr

/-- Mode options of the source: `type Mode = 'single' | 'batch' | 'yandex-ultima'`. -/
inductive Mode where
  | single
  | batch
  | yandexUltima
deriving DecidableEq, Repr

/-- One batch entry of the source: `interface BatchEntry { content: string; type: ContentType }`. -/
structure BatchEntry where
  content : String
  type : ContentType
deriving DecidableEq, Repr

/-- One generated code of the source: `interface BatchQRCode { content; type; dataUrl; formattedContent }`. -/
structure BatchQRCode where
  content : String
  type : ContentType
  dataUrl : String
  formattedContent : String
deriving DecidableEq, Repr

/-- Left brace character, written by code point to keep it out of string literals. -/
def lbraceChar : Char := Char.ofNat 123

/-- Right brace character, written by code point. -/
def rbraceChar : Char := Char.ofNat 125

/-- Membership in the JavaScript regex class `\s` (also the set trimmed by
`String.prototype.trim`): ASCII whitespace, NBSP, Unicode space separators,
line separators and the BOM. -/
def isJsWs (c : Char) : Bool :=
  c == ' ' || c == '\t' || c == '\n' || c == '\r' ||
  c == Char.ofNat 11 || c == Char.ofNat 12 ||
  c == Char.ofNat 160 || c == Char.ofNat 5760 ||
  (8192 ≤ c.toNat && c.toNat ≤ 8202) ||
  c == Char.ofNat 8232 || c == Char.ofNat 8233 ||
  c == Char.ofNat 8239 || c == Char.ofNat 8287 ||
  c == Char.ofNat 12288 || c == Char.ofNat 65279

/-- Model of JavaScript `String.prototype.trim`: drop leading and trailing
`\s`-class characters. -/
def jsTrim (s : String) : String :=
  String.mk (((s.data.dropWhile isJsWs).reverse.dropWhile isJsWs).reverse)

/-- ASCII-lowercased character list of a string, modelling the effect of a
case-insensitive regex or of `toLowerCase` on the ASCII-only strings these
functions handle. -/
def lowerData (s : String) : List Char := s.data.map Char.toLower

/-- Model of `content.match(/^https?:\/\//i)` being non-null: the string
case-insensitively starts with `http://` or `https://`. -/
def httpMatch (content : String) : Bool :=
  "http://".data.isPrefixOf (lowerData content) ||
  "https://".data.isPrefixOf (lowerData content)

/-- JSON values as produced by `JSON.parse`.  Numbers are kept as exact
decimals `m * 10 ^ e` (JSON number literals are finite decimals); object
fields are kept in source order, later duplicates overriding earlier ones
at lookup time, as in JavaScript. -/
inductive JsonValue where
  | null
  | bool (b : Bool)
  | num (m : Int) (e : Int)
  | str (s : String)
  | arr (elems : List JsonValue)
  | obj (fields : List (String × JsonValue))
deriving Repr

/-- JSON grammar whitespace accepted by `JSON.parse` (space, tab, LF, CR). -/
def isJsonWs (c : Char) : Bool :=
  c == ' ' || c == '\t' || c == '\n' || c == '\r'

/-- Drop leading JSON whitespace. -/
def skipJsonWs (cs : List Char) : List Char := cs.dropWhile isJsonWs

/-- Value of one hexadecimal digit, used for `\uXXXX` escapes. -/
def hexDigitVal (c : Char) : Option Nat :=
  if c.isDigit then some (c.toNat - 48)
  else if 'a' ≤ c && c ≤ 'f' then some (c.toNat - 87)
  else if 'A' ≤ c && c ≤ 'F' then some (c.toNat - 55)
  else none

/-- Body of a JSON string literal (after the opening quote): consume up to the
closing quote, decoding escape sequences and rejecting raw control
characters, as `JSON.parse` does.  The fuel argument exceeds the remaining
input length, so it is never exhausted on the initial call used below. -/
def parseStringBody : Nat → List Char → List Char → Option (String × List Char)
  | 0, _, _ => none
  | _ + 1, [], _ => none
  | fuel + 1, c :: rest, acc =>
    if c == '"' then some (String.mk acc.reverse, rest)
    else if c == '\\' then
      match rest with
      | [] => none
      | e :: rest2 =>
        if e == '"' then parseStringBody fuel rest2 ('"' :: acc)
        else if e == '\\' then parseStringBody fuel rest2 ('\\' :: acc)
        else if e == '/' then parseStringBody fuel rest2 ('/' :: acc)
        else if e == 'b' then parseStringBody fuel rest2 (Char.ofNat 8 :: acc)
        else if e == 'f' then parseStringBody fuel rest2 (Char.ofNat 12 :: acc)
        else if e == 'n' then parseStringBody fuel rest2 ('\n' :: acc)
        else if e == 'r' then parseStringBody fuel rest2 ('\r' :: acc)
        else if e == 't' then parseStringBody fuel rest2 ('\t' :: acc)
        else if e == 'u' then
          match rest2 with
          | h1 :: h2 :: h3 :: h4 :: rest3 =>
            match hexDigitVal h1, hexDigitVal h2, hexDigitVal h3, hexDigitVal h4 with
            | some a, some b, some c2, some d =>
              parseStringBody fuel rest3 (Char.ofNat (((a * 16 + b) * 16 + c2) * 16 + d) :: acc)
            | _, _, _, _ => none
          | _ => none
        else none
    else if c.toNat < 32 then none
    else parseStringBody fuel rest (c :: acc)

/-- Decimal digits to a natural number. -/
def digitsToNat (ds : List Char) : Nat :=
  ds.foldl (fun a c => a * 10 + (c.toNat - 48)) 0

/-- Optional fraction part of a JSON number: returns its digits and the rest. -/
def parseFrac (cs : List Char) : Option (List Char × List Char) :=
  match cs with
  | d :: rest =>
    if d == '.' then
      let ds := rest.takeWhile Char.isDigit
      if ds.isEmpty then none else some (ds, rest.dropWhile Char.isDigit)
    else some ([], cs)
  | [] => some ([], cs)

/-- Digits of an exponent after `e`/`E` and an optional sign. -/
def parseExpAfterE (sign : Int) (cs : List Char) : Option (Int × List Char) :=
  let ds := cs.takeWhile Char.isDigit
  if ds.isEmpty then none
  else some (sign * (digitsToNat ds : Int), cs.dropWhile Char.isDigit)

/-- Optional exponent part of a JSON number. -/
def parseExp (cs : List Char) : Option (Int × List Char) :=
  match cs with
  | e :: rest =>
    if e == 'e' || e == 'E' then
      match rest with
      | s :: r2 =>
        if s == '+' then parseExpAfterE 1 r2
        else if s == '-' then parseExpAfterE (-1) r2
        else parseExpAfterE 1 rest
      | [] => none
    else some (0, cs)
  | [] => some (0, cs)

/-- JSON number literal: optional minus, integer part without leading zeros,
optional fraction, optional exponent; the value is returned as an exact
decimal `m * 10 ^ e`. -/
def parseNumberChars (cs : List Char) : Option (JsonValue × List Char) :=
  let signAndRest : Bool × List Char :=
    match cs with
    | c :: rest => if c == '-' then (true, rest) else (false, cs)
    | [] => (false, cs)
  let neg := signAndRest.1
  let cs1 := signAndRest.2
  let intDigits := cs1.takeWhile Char.isDigit
  let cs2 := cs1.dropWhile Char.isDigit
  if intDigits.isEmpty then none
  else if 1 < intDigits.length && intDigits.headD 'x' == '0' then none
  else
    match parseFrac cs2 with
    | none => none
    | some (fracDigits, cs3) =>
      match parseExp cs3 with
      | none => none
      | some (expVal, cs4) =>
        let mNat := digitsToNat (intDigits ++ fracDigits)
        let m : Int := if neg then -(mNat : Int) else (mNat : Int)
        some (JsonValue.num m (expVal - (fracDigits.length : Int)), cs4)

/-- Pending parse obligations of the recursive-descent JSON parser; a single
fuel-indexed function below handles all of them so that the recursion is
structural on the fuel and reduces in the kernel. -/
inductive PReq where
  | value (cs : List Char)
  | objBody (cs : List Char)
  | objMembers (cs : List Char) (acc : List (String × JsonValue))
  | arrBody (cs : List Char)
  | arrElems (cs : List Char) (acc : List JsonValue)

/-- Recursive-descent parser for the `JSON.parse` grammar, structurally
recursive on fuel.  Every recursive step consumes input, so the generous
fuel supplied by `parseJson` is never exhausted. -/
def parseCore : Nat → PReq → Option (JsonValue × List Char)
  | 0, _ => none
  | fuel + 1, req =>
    match req with
    | PReq.value cs0 =>
      let cs := skipJsonWs cs0
      if "true".data.isPrefixOf cs then some (JsonValue.bool true, cs.drop 4)
      else if "false".data.isPrefixOf cs then some (JsonValue.bool false, cs.drop 5)
      else if "null".data.isPrefixOf cs then some (JsonValue.null, cs.drop 4)
      else
        match cs with
        | [] => none
        | c :: rest =>
          if c == '"' then
            match parseStringBody (rest.length + 1) rest [] with
            | some (s, r) => some (JsonValue.str s, r)
            | none => none
          else if c == lbraceChar then parseCore fuel (PReq.objBody rest)
          else if c == '[' then parseCore fuel (PReq.arrBody rest)
          else parseNumberChars cs
    | PReq.objBody cs0 =>
      let cs := skipJsonWs cs0
      match cs with
      | [] => none
      | c :: rest =>
        if c == rbraceChar then some (JsonValue.obj [], rest)
        else parseCore fuel (PReq.objMembers cs [])
    | PReq.objMembers cs0 acc =>
      let cs := skipJsonWs cs0
      match cs with
      | [] => none
      | c :: rest =>
        if c == '"' then
          match parseStringBody (rest.length + 1) rest [] with
          | some (k, r1) =>
            match skipJsonWs r1 with
            | colon :: r2 =>
              if colon == ':' then
                match parseCore fuel (PReq.value r2) with
                | some (v, r3) =>
                  match skipJsonWs r3 with
                  | d :: r4 =>
                    if d == ',' then parseCore fuel (PReq.objMembers r4 (acc ++ [(k, v)]))
                    else if d == rbraceChar then some (JsonValue.obj (acc ++ [(k, v)]), r4)
                    else none
                  | [] => none
                | none => none
              else none
            | [] => none
          | none => none
        else none
    | PReq.arrBody cs0 =>
      let cs := skipJsonWs cs0
      match cs with
      | [] => none
      | c :: rest =>
        if c == ']' then some (JsonValue.arr [], rest)
        else parseCore fuel (PReq.arrElems cs [])
    | PReq.arrElems cs acc =>
      match parseCore fuel (PReq.value cs) with
      | some (v, r1) =>
        match skipJsonWs r1 with
        | d :: r2 =>
          if d == ',' then parseCore fuel (PReq.arrElems r2 (acc ++ [v]))
          else if d == ']' then some (JsonValue.arr (acc ++ [v]), r2)
          else none
        | [] => none
      | none => none

/-- Model of `JSON.parse`: `some v` when the whole input is one JSON value
(possibly surrounded by whitespace), `none` when `JSON.parse` would throw a
`SyntaxError`. -/
def parseJson (s : String) : Option JsonValue :=
  match parseCore (4 * s.length + 16) (PReq.value s.data) with
  | some (v, rest) => if (skipJsonWs rest).isEmpty then some v else none
  | none => none

/-- JavaScript truthiness test on a JSON value: `null`, `false`, `0` and the
empty string are falsy; arrays and objects are always truthy. -/
def jsFalsy : JsonValue → Bool
  | JsonValue.null => true
  | JsonValue.bool b => !b
  | JsonValue.num m _ => m == 0
  | JsonValue.str s => s.isEmpty
  | JsonValue.arr _ => false
  | JsonValue.obj _ => false

/-- Strip factors of ten from an exact decimal `m / 10 ^ k` (with `m ≠ 0`),
so that the fraction is printed without trailing zeros, as JavaScript
prints numbers. -/
def stripTrailingZeros : Int → Nat → Int × Nat
  | m, 0 => (m, 0)
  | m, k + 1 => if m % 10 == 0 && m != 0 then stripTrailingZeros (m / 10) k else (m, k + 1)

/-- Decimal rendering of the exact number `m * 10 ^ e`, matching how a
template literal prints the finite decimals that arise from JSON number
literals (`0` prints as `0`, fractions print without trailing zeros). -/
def renderNum (m : Int) (e : Int) : String :=
  if m == 0 then "0"
  else if 0 ≤ e then toString (m * (10 : Int) ^ e.toNat)
  else
    let stripped := stripTrailingZeros m (-e).toNat
    let m2 := stripped.1
    let k := stripped.2
    if k == 0 then toString m2
    else
      let a := m2.natAbs
      let ip := a / 10 ^ k
      let fp := a % 10 ^ k
      let fpDigits := Nat.toDigits 10 fp
      let fracStr := String.mk (List.replicate (k - fpDigits.length) '0') ++ String.mk fpDigits
      (if m2 < 0 then "-" else "") ++ toString ip ++ "." ++ fracStr

/-- Template-literal stringification of a JSON value (`${v}` in the source):
strings verbatim, `null` as `null`, booleans as words, numbers in decimal,
arrays joined by commas with null elements blank, plain objects as
`[object Object]`.  The fuel bounds array nesting; every call site passes
fuel exceeding the nesting depth of any value `parseJson` can produce from
its input, so the fuel is never exhausted there. -/
def jsToString : Nat → JsonValue → String
  | _, JsonValue.null => "null"
  | _, JsonValue.bool b => if b then "true" else "false"
  | _, JsonValue.num m e => renderNum m e
  | _, JsonValue.str s => s
  | _, JsonValue.obj _ => "[object Object]"
  | 0, JsonValue.arr _ => ""
  | fuel + 1, JsonValue.arr xs =>
    String.intercalate "," (xs.map fun x =>
      match x with
      | JsonValue.null => ""
      | x => jsToString fuel x)

/-- JavaScript property access `v[key]` on a parsed JSON value: a field
lookup on objects (later duplicate keys override earlier ones, as in
`JSON.parse`), `none` (undefined) on every non-object. -/
def jsGetField (v : JsonValue) (key : String) : Option JsonValue :=
  match v with
  | JsonValue.obj fields => fields.foldl (fun acc kv => if kv.1 == key then some kv.2 else acc) none
  | _ => none

/-- Model of the source pattern `${wifiData.key || 'dflt'}`: the default when
the field is absent or falsy, otherwise the field value stringified. -/
def fieldOr (fuel : Nat) (v : JsonValue) (key dflt : String) : String :=
  match jsGetField v key with
  | some fv => if jsFalsy fv then dflt else jsToString fuel fv
  | none => dflt

/-- Wifi branch of `formatContentByType`: `JSON.parse` the content; on a
`SyntaxError` (parse failure) or a `TypeError` (field access on `null`)
the `catch` returns the content unchanged; otherwise emit
`WIFI:T:<encryption>;S:<ssid>;P:<password>;;` with the defaults of the
source (`'WPA'`, `''`, `''`). -/
def wifiFormat (content : String) : String :=
  match parseJson content with
  | some JsonValue.null => content
  | some v =>
    "WIFI:T:" ++ fieldOr (content.length + 1) v "encryption" "WPA" ++
    ";S:" ++ fieldOr (content.length + 1) v "ssid" "" ++
    ";P:" ++ fieldOr (content.length + 1) v "password" "" ++ ";;"
  | none => content

/-- Embedding of the source function `formatContentByType(content, type)`. -/
def formatContentByType (content : String) (type : ContentType) : String :=
  match type with
  | ContentType.url =>
    if httpMatch content then content else "https://" ++ content
  | ContentType.email => "mailto:" ++ content
  | ContentType.phone => "tel:" ++ content
  | ContentType.sms => "sms:" ++ content
  | ContentType.wifi => wifiFormat content
  | ContentType.text => content

/-- Model of `content.match(/^(https?:\/\/|www\.)/i)` being non-null. -/
def urlCheck (s : String) : Bool :=
  "http://".data.isPrefixOf (lowerData s) ||
  "https://".data.isPrefixOf (lowerData s) ||
  "www.".data.isPrefixOf (lowerData s)

/-- Characters admitted by the regex class `[^\s@]`. -/
def okEmailChar (c : Char) : Bool := !(isJsWs c) && c != '@'

/-- Model of `content.match(/^[^\s@]+@[^\s@]+\.[^\s@]+$/)` being non-null:
the string decomposes as `A ++ "@" ++ B ++ "." ++ C` with `A`, `B`, `C`
non-empty and free of whitespace and `@` — equivalently, some positions
`i < j` hold the `@` and a later `.`, every other position holds a
`[^\s@]` character, and the three segments are non-empty. -/
def emailCheck (s : String) : Bool :=
  let cs := s.data
  let n := cs.length
  (List.range n).any fun i =>
    (List.range n).any fun j =>
      decide (0 < i) && decide (i + 1 < j) && decide (j + 1 < n) &&
      (cs.getD i ' ' == '@') && (cs.getD j ' ' == '.') &&
      ((List.range n).all fun k => (k == i) || (k == j) || okEmailChar (cs.getD k ' '))

/-- Characters admitted by the regex class `[0-9\s\(\)\-]`. -/
def phoneClassChar (c : Char) : Bool :=
  c.isDigit || isJsWs c || c == '(' || c == ')' || c == '-'

/-- Model of `content.match(/^\+?[0-9\s\(\)\-]{8,20}$/)` being non-null: an
optional leading `+`, then 8 to 20 characters from the class. -/
def phoneCheck (s : String) : Bool :=
  let cs := s.data
  let rest :=
    match cs with
    | c :: t => if c == '+' then t else cs
    | [] => []
  decide (8 ≤ rest.length) && decide (rest.length ≤ 20) && rest.all phoneClassChar

/-- Substring containment over character lists, modelling `String.prototype.includes`. -/
def containsSub (needle hay : List Char) : Bool :=
  (List.range (hay.length + 1)).any fun i => needle.isPrefixOf (hay.drop i)

/-- Model of `content.startsWith('{') && content.endsWith('}') && content.includes('ssid')`. -/
def wifiCheck (s : String) : Bool :=
  [lbraceChar].isPrefixOf s.data && [rbraceChar].isSuffixOf s.data &&
  containsSub "ssid".data s.data

/-- Embedding of the source function `detectContentType(content)`: the four
pattern checks in source order, first match winning, defaulting to `text`. -/
def detectContentType (content : String) : ContentType :=
  if urlCheck content then ContentType.url
  else if emailCheck content then ContentType.email
  else if phoneCheck content then ContentType.phone
  else if wifiCheck content then ContentType.wifi
  else ContentType.text

/-- Fixed URL template applied to every entry in `yandex-ultima` mode. -/
def ultimaLink : String :=
  "https://8jxm.adj.st/addpromocode?adj_t=rf7a0p4_8cgc7kg&ref=qr&code="

/-- One iteration body of `generateBatchQRCodes` for a retained entry:
in `yandex-ultima` mode the payload is the fixed template with the raw
content substituted verbatim; otherwise it is `formatContentByType`; the
external `QRCode.toDataURL` collaborator is the opaque `encode` parameter. -/
def mkBatchCode (mode : Mode) (encode : String → String) (entry : BatchEntry) : BatchQRCode :=
  let formattedContent :=
    if mode = Mode.yandexUltima then ultimaLink ++ entry.content
    else formatContentByType entry.content entry.type
  { content := entry.content
    type := entry.type
    dataUrl := encode formattedContent
    formattedContent := formattedContent }

/-- Embedding of the batch loop of `generateBatchQRCodes`: iterate the
entries in order, skip those whose trimmed content is empty, and push one
result per retained entry. -/
def generateBatchQRCodes (mode : Mode) (encode : String → String)
    (entries : List BatchEntry) : List BatchQRCode :=
  entries.foldl
    (fun acc entry =>
      if jsTrim entry.content = "" then acc
      else acc ++ [mkBatchCode mode encode entry])
    []

/-- The characters kept verbatim by the regex class `[a-z0-9]` with the `i` flag. -/
def isAlnumAscii (c : Char) : Bool :=
  c.isDigit || ('a' ≤ c && c ≤ 'z') || ('A' ≤ c && c ≤ 'Z')

/-- Filename sanitizer of `downloadAllQRCodesAsZip`:
`.replace(/[^a-z0-9]/gi, '_').toLowerCase().slice(0, 30)`. -/
def sanitize (s : String) : String :=
  String.mk (((s.data.map fun c => if isAlnumAscii c then c else '_').map Char.toLower).take 30)

/-- File extension string of a `FileFormat`. -/
def fileExt : FileFormat → String
  | FileFormat.png => "png"
  | FileFormat.eps => "eps"

/-- Name of a `ContentType` as the source's string literal. -/
def typeName : ContentType → String
  | ContentType.text => "text"
  | ContentType.url => "url"
  | ContentType.email => "email"
  | ContentType.phone => "phone"
  | ContentType.sms => "sms"
  | ContentType.wifi => "wifi"

/-- Filename chosen for one code inside the zip archive by
`downloadAllQRCodesAsZip`: sanitized raw content plus extension when the
use-content naming option is on or the mode is `yandex-ultima`, otherwise
sanitized formatted content, an underscore, the type name and the extension. -/
def zipFilename (useContentAsFilename : Bool) (mode : Mode) (fileFormat : FileFormat)
    (code : BatchQRCode) : String :=
  if useContentAsFilename || mode == Mode.yandexUltima then
    sanitize code.content ++ "." ++ fileExt fileFormat
  else
    sanitize code.formattedContent ++ "_" ++ typeName code.type ++ "." ++ fileExt fileFormat

/-- Fixed `scanline` procedure definition emitted by `convertCanvasToEPS`. -/
def epsScanlineDef : String :=
  "/scanline \x7b % x y scanline\n  /y exch def\n  /x exch def\n  x y moveto\n  x 1 add y lineto\n  stroke\n\x7d def\n"

/-- Embedding of `convertCanvasToEPS`: the bitmap is its pixel width and
height plus the RGBA byte array `data` of `getImageData` (index
`(y * width + x) * 4 + 3` is the alpha of pixel `(x, y)`), and the result
is the EPS text built by the source's nested loops. -/
def convertCanvasToEPS (width height : Nat) (data : Nat → Nat) : String :=
  ((List.range height).foldl
    (fun acc y =>
      (List.range width).foldl
        (fun acc2 x =>
          if data ((y * width + x) * 4 + 3) > 128 then
            acc2 ++ (toString x ++ " " ++ toString (height - y) ++ " scanline\n")
          else acc2)
        acc)
    ("%!PS-Adobe-3.0 EPSF-3.0\n" ++
     ("%%BoundingBox: 0 0 " ++ toString width ++ " " ++ toString height ++ "\n") ++
     epsScanlineDef ++
     "0.5 setlinewidth\n" ++ "0 setgray\n")) ++ "showpage\n"

/-- Concatenation of a list of strings, in order. -/
def joinAll (l : List String) : String := l.foldr (fun a b => a ++ b) ""

/-- The path-primitive invocations (`x (height - y) scanline` lines) emitted
by `convertCanvasToEPS`, one per pixel whose alpha exceeds 128, in
row-major raster order. -/
def epsEmissions (width height : Nat) (data : Nat → Nat) : List String :=
  ((List.range height).map fun y =>
    (List.range width).filterMap fun x =>
      if data ((y * width + x) * 4 + 3) > 128 then
        some (toString x ++ " " ++ toString (height - y) ++ " scanline\n")
      else none).flatten

/-- Sanitizer as claim C9 words it: every character outside `[a-z0-9]`
(case-insensitively) is stripped — removed, not replaced — then the result
is lowercased and truncated to 30 characters.  Written from the claim's
words, to be compared against the source's `sanitize`. -/
def sanitizeClaimStrip (s : String) : String :=
  String.mk (((s.data.filter isAlnumAscii).map Char.toLower).take 30)

/-- Concrete stand-in for the opaque external QR encoder, used in witnesses. -/
def identityEncode : String → String := fun s => s

lemma joinAll_cons (s : String) (l : List String) : joinAll (s :: l) = s ++ joinAll l := rfl

lemma joinAll_append (l1 l2 : List String) : joinAll (l1 ++ l2) = joinAll l1 ++ joinAll l2 := by
  induction l1 with
  | nil => simp [joinAll]
  | cons h t ih => simp [joinAll_cons, ih, String.append_assoc]

lemma joinAll_flatten (L : List (List String)) : joinAll L.flatten = joinAll (L.map joinAll) := by
  induction L with
  | nil => rfl
  | cons hd tl ih => simp [List.flatten_cons, joinAll_append, joinAll_cons, ih]

lemma foldl_emit_eq {α : Type} (p : α → Prop) [DecidablePred p] (f : α → String) :
    ∀ (xs : List α) (acc : String),
    xs.foldl (fun a x => if p x then a ++ f x else a) acc
      = acc ++ joinAll (xs.filterMap fun x => if p x then some (f x) else none) := by
  intro xs
  induction xs with
  | nil => intro acc; simp [joinAll]
  | cons hd tl ih =>
    intro acc
    by_cases hp : p hd
    · simp [List.foldl_cons, hp, List.filterMap_cons, ih, joinAll_cons, String.append_assoc]
    · simp [List.foldl_cons, hp, List.filterMap_cons, ih]

lemma eps_outer_fold (width height : Nat) (data : Nat → Nat) :
    ∀ (ys : List Nat) (acc : String),
    ys.foldl
      (fun acc y =>
        (List.range width).foldl
          (fun acc2 x =>
            if data ((y * width + x) * 4 + 3) > 128 then
              acc2 ++ (toString x ++ " " ++ toString (height - y) ++ " scanline\n")
            else acc2)
          acc)
      acc
      = acc ++ joinAll (ys.map fun y =>
          joinAll ((List.range width).filterMap fun x =>
            if data ((y * width + x) * 4 + 3) > 128 then
              some (toString x ++ " " ++ toString (height - y) ++ " scanline\n")
            else none)) := by
  intro ys
  induction ys with
  | nil => intro acc; simp [joinAll]
  | cons hd tl ih =>
    intro acc
    rw [List.foldl_cons, foldl_emit_eq, ih]
    simp [joinAll_cons, String.append_assoc]

lemma generateBatch_foldl_eq (mode : Mode) (encode : String → String) :
    ∀ (entries : List BatchEntry) (acc : List BatchQRCode),
    entries.foldl
      (fun acc entry =>
        if jsTrim entry.content = "" then acc
        else acc ++ [mkBatchCode mode encode entry])
      acc
      = acc ++ (entries.filter fun e => !(jsTrim e.content == "")).map (mkBatchCode mode encode) := by
  intro entries
  induction entries with
  | nil => intro acc; simp
  | cons hd tl ih =>
    intro acc
    by_cases h : jsTrim hd.content = ""
    · simp [List.foldl_cons, h, List.filter_cons, ih]
    · simp [List.foldl_cons, h, List.filter_cons, ih]

lemma generateBatch_eq (mode : Mode) (encode : String → String) (entries : List BatchEntry) :
    generateBatchQRCodes mode encode entries
      = (entries.filter fun e => !(jsTrim e.content == "")).map (mkBatchCode mode encode) := by
  unfold generateBatchQRCodes
  simpa using generateBatch_foldl_eq mode encode entries []

/-- C2.  For every string that case-insensitively starts with `http://` or
`https://` (the source's `/^https?:\/\//i` test, `httpMatch`), the `url`
formatter returns it unchanged; for every other string it returns
`https://` prepended to it. -/
theorem C2_url_formatting :
    ∀ s : String,
    (httpMatch s = true → formatContentByType s ContentType.url = s) ∧
    (httpMatch s = false → formatContentByType s ContentType.url = "https://" ++ s) := by
  intro s
  constructor
  · intro h; simp [formatContentByType, h]
  · intro h; simp [formatContentByType, h]

theorem C2_url_formatting_witness :
    formatContentByType "HTTP://Example.com" ContentType.url = "HTTP://Example.com" ∧
    formatContentByType "example.com" ContentType.url = "https://" ++ "example.com" :=
  ⟨(C2_url_formatting "HTTP://Example.com").1 (by decide),
   (C2_url_formatting "example.com").2 (by decide)⟩

/-- C4.  The `email`, `phone` and `sms` formatters prepend their scheme
unconditionally, so applying the email rule twice yields a double
`mailto:` — the formatter is not idempotent for these kinds. -/
theorem C4_unconditional_prefixing :
    ∀ s : String,
    formatContentByType s ContentType.email = "mailto:" ++ s ∧
    formatContentByType s ContentType.phone = "tel:" ++ s ∧
    formatContentByType s ContentType.sms = "sms:" ++ s ∧
    formatContentByType (formatContentByType s ContentType.email) ContentType.email
      = "mailto:" ++ ("mailto:" ++ s) := by
  intro s
  exact ⟨rfl, rfl, rfl, rfl⟩

/-- C3.  For every string that `JSON.parse` accepts as an object, the `wifi`
formatter emits `WIFI:T:<encryption>;S:<ssid>;P:<password>;;` built from
the object's fields, the encryption defaulting to `WPA` when absent or
falsy (the ssid and password to the empty string); the spec's concrete
example holds; and for every string `JSON.parse` rejects, the content is
returned unchanged. -/
theorem C3_wifi_formatting :
    (∀ (s : String) (fields : List (String × JsonValue)),
      parseJson s = some (JsonValue.obj fields) →
      formatContentByType s ContentType.wifi =
        "WIFI:T:" ++ fieldOr (s.length + 1) (JsonValue.obj fields) "encryption" "WPA" ++
        ";S:" ++ fieldOr (s.length + 1) (JsonValue.obj fields) "ssid" "" ++
        ";P:" ++ fieldOr (s.length + 1) (JsonValue.obj fields) "password" "" ++ ";;") ∧
    formatContentByType "\x7b\"ssid\":\"Home\",\"password\":\"pw\",\"encryption\":\"WPA2\"\x7d"
      ContentType.wifi = "WIFI:T:WPA2;S:Home;P:pw;;" ∧
    (∀ s : String, parseJson s = none → formatContentByType s ContentType.wifi = s) := by
  refine ⟨?_, rfl, ?_⟩
  · intro s fields h
    show wifiFormat s = _
    unfold wifiFormat
    rw [h]
  · intro s h
    show wifiFormat s = s
    unfold wifiFormat
    rw [h]

theorem C3_wifi_formatting_witness :
    (formatContentByType "\x7b\x7d" ContentType.wifi =
      "WIFI:T:" ++ fieldOr (("\x7b\x7d" : String).length + 1) (JsonValue.obj []) "encryption" "WPA" ++
      ";S:" ++ fieldOr (("\x7b\x7d" : String).length + 1) (JsonValue.obj []) "ssid" "" ++
      ";P:" ++ fieldOr (("\x7b\x7d" : String).length + 1) (JsonValue.obj []) "password" "" ++ ";;") ∧
    formatContentByType "not json" ContentType.wifi = "not json" :=
  ⟨C3_wifi_formatting.1 "\x7b\x7d" [] rfl, C3_wifi_formatting.2.2 "not json" rfl⟩

/-- C10.  For every string `JSON.parse` accepts as any non-null value —
numbers and other non-objects included — the `wifi` formatter still emits
the WIFI string with every missing or falsy field replaced by its default
(field access on a non-object yields undefined, hence the default); in
particular an empty object and the string `42` both format to
`WIFI:T:WPA;S:;P:;;`, while the unchanged-content fallback fires on parse
failure and on `null` (whose field access throws and is caught). -/
theorem C10_wifi_nonnull_json :
    (∀ (s : String) (v : JsonValue), parseJson s = some v → v ≠ JsonValue.null →
      formatContentByType s ContentType.wifi =
        "WIFI:T:" ++ fieldOr (s.length + 1) v "encryption" "WPA" ++
        ";S:" ++ fieldOr (s.length + 1) v "ssid" "" ++
        ";P:" ++ fieldOr (s.length + 1) v "password" "" ++ ";;") ∧
    formatContentByType "\x7b\x7d" ContentType.wifi = "WIFI:T:WPA;S:;P:;;" ∧
    (parseJson "42" = some (JsonValue.num 42 0) ∧
      formatContentByType "42" ContentType.wifi = "WIFI:T:WPA;S:;P:;;") ∧
    (parseJson "null" = some JsonValue.null ∧
      formatContentByType "null" ContentType.wifi = "null") ∧
    (∀ s : String, parseJson s = none → formatContentByType s ContentType.wifi = s) := by
  refine ⟨?_, rfl, ⟨rfl, rfl⟩, ⟨rfl, rfl⟩, ?_⟩
  · intro s v h hne
    show wifiFormat s = _
    unfold wifiFormat
    rw [h]
    cases v
    case null => exact absurd rfl hne
    all_goals rfl
  · intro s h
    show wifiFormat s = s
    unfold wifiFormat
    rw [h]

theorem C10_wifi_nonnull_json_witness :
    (formatContentByType "42" ContentType.wifi =
      "WIFI:T:" ++ fieldOr (("42" : String).length + 1) (JsonValue.num 42 0) "encryption" "WPA" ++
      ";S:" ++ fieldOr (("42" : String).length + 1) (JsonValue.num 42 0) "ssid" "" ++
      ";P:" ++ fieldOr (("42" : String).length + 1) (JsonValue.num 42 0) "password" "" ++ ";;") ∧
    formatContentByType "wifi stuff" ContentType.wifi = "wifi stuff" :=
  ⟨C10_wifi_nonnull_json.1 "42" (JsonValue.num 42 0) rfl (fun hh => nomatch hh),
   C10_wifi_nonnull_json.2.2.2.2 "wifi stuff" rfl⟩

/-- C5.  The detector applies its four pattern checks in the fixed source
order — URL, then email, then phone, then wifi-JSON — with first match
winning and `text` as the default, and classifies the spec's four sample
inputs accordingly. -/
theorem C5_detect_priority :
    (∀ s : String,
      detectContentType s =
        if urlCheck s then ContentType.url
        else if emailCheck s then ContentType.email
        else if phoneCheck s then ContentType.phone
        else if wifiCheck s then ContentType.wifi
        else ContentType.text) ∧
    detectContentType "user@example.com" = ContentType.email ∧
    detectContentType "https://example.com" = ContentType.url ∧
    detectContentType "+1 (555) 123-4567" = ContentType.phone ∧
    detectContentType "hello world" = ContentType.text :=
  ⟨fun _ => rfl, by decide, by decide, by decide, by decide⟩

/-- C6.  A batch run produces exactly the image, in input order, of the
entries whose trimmed content is non-empty: entries whose trimmed content
is empty are skipped, every retained entry yields exactly one code, and
the output order is the input order of the retained entries (the loop is
a single sequential fold). -/
theorem C6_batch_order_and_skip :
    ∀ (mode : Mode) (encode : String → String) (entries : List BatchEntry),
    generateBatchQRCodes mode encode entries
      = (entries.filter fun e => !(jsTrim e.content == "")).map (mkBatchCode mode encode) := by
  intro mode encode entries
  exact generateBatch_eq mode encode entries

/-- C7.  Every code produced while the mode is `yandex-ultima` carries as its
payload exactly the fixed promo template with the entry's raw content
appended verbatim, independently of the entry's declared type. -/
theorem C7_ultima_template :
    ∀ (encode : String → String) (entries : List BatchEntry) (c : BatchQRCode),
    c ∈ generateBatchQRCodes Mode.yandexUltima encode entries →
    c.formattedContent =
      "https://8jxm.adj.st/addpromocode?adj_t=rf7a0p4_8cgc7kg&ref=qr&code=" ++ c.content := by
  intro encode entries c hc
  rw [generateBatch_eq] at hc
  obtain ⟨e, _, rfl⟩ := List.mem_map.mp hc
  simp [mkBatchCode, ultimaLink]

theorem C7_ultima_template_witness :
    (mkBatchCode Mode.yandexUltima identityEncode ⟨"PROMO1", ContentType.text⟩).formattedContent =
      "https://8jxm.adj.st/addpromocode?adj_t=rf7a0p4_8cgc7kg&ref=qr&code=" ++
        (mkBatchCode Mode.yandexUltima identityEncode ⟨"PROMO1", ContentType.text⟩).content :=
  C7_ultima_template identityEncode [⟨"PROMO1", ContentType.text⟩] _ (by decide)

/-- C1 counterexample.  The claim that in ANY mode every produced code's
`formattedContent` equals `formatContentByType` of its content and type is
false: in `yandex-ultima` mode the entry `("A", text)` yields the promo
URL as payload, while the formatter returns `"A"` unchanged. -/
theorem C1_counterexample :
    ¬ (∀ (mode : Mode) (encode : String → String) (entries : List BatchEntry),
        ∀ c ∈ generateBatchQRCodes mode encode entries,
        c.formattedContent = formatContentByType c.content c.type) := by
  intro h
  have hmem : mkBatchCode Mode.yandexUltima identityEncode ⟨"A", ContentType.text⟩ ∈
      generateBatchQRCodes Mode.yandexUltima identityEncode [⟨"A", ContentType.text⟩] := by
    decide
  have heq := h Mode.yandexUltima identityEncode [⟨"A", ContentType.text⟩] _ hmem
  exact absurd heq (by decide)

/-- C1 amended.  For every code produced by a batch run in any mode other
than `yandex-ultima`, the stored `formattedContent` equals
`formatContentByType` of that code's content and type; in `yandex-ultima`
mode it instead equals the fixed promo template with the raw content
appended. -/
theorem C1_amended_payload_invariant :
    ∀ (mode : Mode) (encode : String → String) (entries : List BatchEntry) (c : BatchQRCode),
    c ∈ generateBatchQRCodes mode encode entries →
    (mode ≠ Mode.yandexUltima → c.formattedContent = formatContentByType c.content c.type) ∧
    (mode = Mode.yandexUltima → c.formattedContent = ultimaLink ++ c.content) := by
  intro mode encode entries c hc
  rw [generateBatch_eq] at hc
  obtain ⟨e, _, rfl⟩ := List.mem_map.mp hc
  constructor
  · intro hm
    simp [mkBatchCode, if_neg hm]
  · intro hm
    subst hm
    simp [mkBatchCode]

theorem C1_amended_payload_invariant_witness :
    (mkBatchCode Mode.batch identityEncode ⟨"hi", ContentType.text⟩).formattedContent =
      formatContentByType (mkBatchCode Mode.batch identityEncode ⟨"hi", ContentType.text⟩).content
        (mkBatchCode Mode.batch identityEncode ⟨"hi", ContentType.text⟩).type :=
  (C1_amended_payload_invariant Mode.batch identityEncode [⟨"hi", ContentType.text⟩] _
    (by decide)).1 (by decide)

/-- C8.  The EPS serializer emits the fixed header with bounding box
`0 0 width height`, then — scanning pixels in row-major raster order —
exactly one `x (height - y) scanline` invocation per pixel whose alpha
exceeds 128, then the fixed `showpage` footer; for a fully opaque 2-by-2
bitmap there are exactly 4 emissions, in raster order, and the bounding
box line reads `0 0 2 2`. -/
theorem C8_eps_serialization :
    (∀ (width height : Nat) (data : Nat → Nat),
      convertCanvasToEPS width height data =
        "%!PS-Adobe-3.0 EPSF-3.0\n" ++
        ("%%BoundingBox: 0 0 " ++ toString width ++ " " ++ toString height ++ "\n") ++
        epsScanlineDef ++
        "0.5 setlinewidth\n" ++ "0 setgray\n" ++
        joinAll (epsEmissions width height data) ++ "showpage\n") ∧
    ("%%BoundingBox: 0 0 " ++ toString 2 ++ " " ++ toString 2 ++ "\n") = "%%BoundingBox: 0 0 2 2\n" ∧
    (epsEmissions 2 2 (fun _ => 255)).length = 4 ∧
    epsEmissions 2 2 (fun _ => 255) =
      ["0 2 scanline\n", "1 2 scanline\n", "0 1 scanline\n", "1 1 scanline\n"] := by
  refine ⟨?_, rfl, rfl, rfl⟩
  intro width height data
  unfold convertCanvasToEPS
  rw [eps_outer_fold]
  simp only [epsEmissions, joinAll_flatten, List.map_map, Function.comp_def, String.append_assoc]

/-- C9 counterexample.  The claim that characters outside `[a-z0-9]` are
STRIPPED from the filename is false: the source replaces each of them with
an underscore, so the code `("a b", text)` under the raw-content naming
policy is archived as `a_b.png`, not the claimed `ab.png`. -/
theorem C9_counterexample :
    zipFilename true Mode.batch FileFormat.png ⟨"a b", ContentType.text, "", "a b"⟩ = "a_b.png" ∧
    sanitizeClaimStrip "a b" ++ "." ++ fileExt FileFormat.png = "ab.png" ∧
    ("a_b.png" : String) ≠ "ab.png" :=
  ⟨rfl, rfl, by decide⟩

/-- C9 amended.  The archive filename is the sanitized raw content — every
character outside `[a-z0-9]` (case-insensitively) REPLACED with an
underscore, lowercased, truncated to 30 characters — plus a dot and the
image-format extension when the use-raw-content policy is on or the mode
is `yandex-ultima`; otherwise the sanitized formatted content, an
underscore, the type name and the extension. -/
theorem C9_amended_zip_naming :
    ∀ (useContentAsFilename : Bool) (mode : Mode) (fmt : FileFormat) (code : BatchQRCode),
    zipFilename useContentAsFilename mode fmt code =
      if useContentAsFilename || mode == Mode.yandexUltima then
        String.mk (((code.content.data.map fun c => if isAlnumAscii c then c else '_').map
          Char.toLower).take 30) ++ "." ++ fileExt fmt
      else
        String.mk (((code.formattedContent.data.map fun c => if isAlnumAscii c then c else '_').map
          Char.toLower).take 30) ++ "_" ++ typeName code.type ++ "." ++ fileExt fmt := by
  intro u mode fmt code
  rfl

end QRApp
